import Mathlib

/-!
Verification of the quote-ingestion engine (QuoteEngine/ingestors.py).

Paths and file contents are modelled as lists of characters. File input is
modelled at the boundary the source code itself uses: the CSV tokenizer,
line reader, paragraph enumerator and the pdftotext subprocess are external
collaborators, so each parse function takes the data those collaborators
deliver (rows, lines, paragraph texts, extracted text) as an explicit
argument.

A Python function can return a list of records, return an error string in
place of a list, or raise an exception; the type ParseOutcome has one
constructor for each of these.
-/

/-- Coerce a Lean string literal to the list-of-characters representation
used throughout the model. -/
def str (x : String) : List Char := x.data

/-- Python list slicing helper: the model of the expression xs.split(sep)
for a one-character separator sep. Splits on every occurrence of sep and
keeps empty chunks; the result is never the empty list, matching the fact
that str.split in Python never returns an empty list. -/
def pySplit (sep : Char) : List Char → List (List Char)
  | [] => [[]]
  | c :: cs =>
    if c = sep then
      [] :: pySplit sep cs
    else
      match pySplit sep cs with
      | [] => [[c]]
      | r :: rs => (c :: r) :: rs

/-- Model of the Python indexing expression xs[-1] on a nonempty list of
strings (split never yields an empty list, so the default is unreachable). -/
def pyLast (l : List (List Char)) : List Char := l.getLastD []

/-- Model of the Python expression xs.index(x) on a list of strings: the
index of the first occurrence, or none where Python raises ValueError. -/
def pyIndex (x : List Char) : List (List Char) → Option Nat
  | [] => none
  | y :: ys => if y = x then some 0 else (pyIndex x ys).map (· + 1)

/-- The quote record: QuoteModel in ingestors.py stores the body and the
author exactly as given to the constructor. -/
structure QuoteModel where
  body : List Char
  author : List Char
deriving DecidableEq, Repr

/-- Result of a parse call: a list of records, a string returned in place
of a result, or an uncaught Python exception. -/
inductive ParseOutcome where
  | records : List QuoteModel → ParseOutcome
  | sentinel : List Char → ParseOutcome
  | exn : ParseOutcome
deriving DecidableEq, Repr

/-- IngestorInterface.FILE_EXTENSIONS, the class attribute shared by every
class in the hierarchy: no subclass overrides it. -/
def IngestorInterface.FILE_EXTENSIONS : List (List Char) :=
  [str "csv", str "docx", str "pdf", str "txt"]

/-- IngestorInterface.can_ingest: path.split('.')[-1] in FILE_EXTENSIONS. -/
def IngestorInterface.can_ingest (path : List Char) : Bool :=
  decide (pyLast (pySplit '.' path) ∈ IngestorInterface.FILE_EXTENSIONS)

/-- CSVIndexer declares no FILE_EXTENSIONS and no can_ingest of its own:
it inherits both from IngestorInterface. -/
def CSVIndexer.can_ingest : List Char → Bool := IngestorInterface.can_ingest

/-- DocxIndexer inherits can_ingest from IngestorInterface. -/
def DocxIndexer.can_ingest : List Char → Bool := IngestorInterface.can_ingest

/-- TxtIndexer inherits can_ingest from IngestorInterface. -/
def TxtIndexer.can_ingest : List Char → Bool := IngestorInterface.can_ingest

/-- PDFIndexer inherits can_ingest from IngestorInterface. -/
def PDFIndexer.can_ingest : List Char → Bool := IngestorInterface.can_ingest

/-- Ingestor.can_ingest re-implements the same check: path.split('.')[-1]
in cls.FILE_EXTENSIONS, where FILE_EXTENSIONS is inherited from
IngestorInterface. -/
def Ingestor.can_ingest (path : List Char) : Bool :=
  decide (pyLast (pySplit '.' path) ∈ IngestorInterface.FILE_EXTENSIONS)

/-- The per-row loop of CSVIndexer.parse: for each data row take the
fields at the body and author column indices; an index beyond the row
length is an IndexError, which aborts the whole call (none). -/
def csvRows (bi ai : Nat) : List (List (List Char)) → Option (List QuoteModel)
  | [] => some []
  | r :: rs =>
    if bi < r.length ∧ ai < r.length then
      (csvRows bi ai rs).map (fun qs => ⟨r.getD bi [], r.getD ai []⟩ :: qs)
    else none

/-- CSVIndexer.parse. The csv.reader tokenization is external, so the call
takes the token rows of the file at the path (header row first, when any).
An empty file makes next(reader) raise StopIteration; a header missing the
body or the author column makes header.index raise ValueError; a short data
row raises IndexError: all three surface as ParseOutcome.exn. -/
def CSVIndexer.parse (path : List Char) (rows : List (List (List Char))) :
    ParseOutcome :=
  if CSVIndexer.can_ingest path = true then
    match rows with
    | [] => .exn
    | header :: data =>
      match pyIndex (str "body") header with
      | none => .exn
      | some bi =>
        match pyIndex (str "author") header with
        | none => .exn
        | some ai =>
          match csvRows bi ai data with
          | none => .exn
          | some qs => .records qs
  else .sentinel (str "File type not allowed / supported")

/-- The per-paragraph loop of DocxIndexer.parse: an empty paragraph text is
skipped (Python truthiness of the string); otherwise the text is split on
every hyphen and parts 0 and 1 become the record; fewer than two parts is
an IndexError, which aborts the whole call. -/
def docxParas : List (List Char) → Option (List QuoteModel)
  | [] => some []
  | p :: ps =>
    if p = [] then docxParas ps
    else
      let parts := pySplit '-' p
      if 2 ≤ parts.length then
        (docxParas ps).map (fun qs => ⟨parts.getD 0 [], parts.getD 1 []⟩ :: qs)
      else none

/-- DocxIndexer.parse, taking the paragraph texts that docx.Document
delivers for the file at the path. -/
def DocxIndexer.parse (path : List Char) (paragraphs : List (List Char)) :
    ParseOutcome :=
  if DocxIndexer.can_ingest path = true then
    match docxParas paragraphs with
    | none => .exn
    | some qs => .records qs
  else .sentinel (str "File type not allowed / supported")

/-- The per-line loop of TxtIndexer.parse: every line (blank ones included)
is split on every hyphen and parts 0 and 1 become the record; a line with
no hyphen has one part, so parts[1] is an IndexError, which aborts the
whole call. -/
def txtLines : List (List Char) → Option (List QuoteModel)
  | [] => some []
  | l :: ls =>
    let parts := pySplit '-' l
    if 2 ≤ parts.length then
      (txtLines ls).map (fun qs => ⟨parts.getD 0 [], parts.getD 1 []⟩ :: qs)
    else none

/-- TxtIndexer.parse, taking the lines that readlines delivers for the file
at the path (each line keeps its trailing newline character). -/
def TxtIndexer.parse (path : List Char) (lines : List (List Char)) :
    ParseOutcome :=
  if TxtIndexer.can_ingest path = true then
    match txtLines lines with
    | none => .exn
    | some qs => .records qs
  else .sentinel (str "File type not allowed / supported")

/-- The per-line loop of PDFIndexer.parse: each line is split on every
hyphen and the tuple is unpacked into exactly body and author; a part count
other than two raises ValueError, which aborts the whole call. -/
def pdfLines : List (List Char) → Option (List QuoteModel)
  | [] => some []
  | l :: ls =>
    let parts := pySplit '-' l
    if parts.length = 2 then
      (pdfLines ls).map (fun qs => ⟨parts.getD 0 [], parts.getD 1 []⟩ :: qs)
    else none

/-- PDFIndexer.parse, taking the decoded standard output of the pdftotext
subprocess run on the file at the path; the output is split on the newline
character. -/
def PDFIndexer.parse (path : List Char) (output : List Char) : ParseOutcome :=
  if PDFIndexer.can_ingest path = true then
    match pdfLines (pySplit '\n' output) with
    | none => .exn
    | some qs => .records qs
  else .sentinel (str "File type not allowed / supported")

/-- The classes of ingestors.py that take part in the dispatch of
Ingestor.parse. -/
inductive ParserClass where
  | CSVIndexer
  | DocxIndexer
  | TxtIndexer
  | PDFIndexer
  | Ingestor
deriving DecidableEq, Repr

/-- IngestorInterface subclass list in definition order, as returned by
cls.base.subclasses() inside Ingestor.parse: the four indexers and
Ingestor itself, every one a direct subclass of IngestorInterface. -/
def subclassesOfInterface : List ParserClass :=
  [.CSVIndexer, .DocxIndexer, .TxtIndexer, .PDFIndexer, .Ingestor]

/-- The FILE_EXTENSIONS attribute seen on each class: no class in
ingestors.py overrides it, so every one resolves to the full inherited
registry of IngestorInterface. -/
def ParserClass.FILE_EXTENSIONS : ParserClass → List (List Char) :=
  fun _ => IngestorInterface.FILE_EXTENSIONS

/-- The generator expression in Ingestor.parse, line 198: the first
subclass whose FILE_EXTENSIONS contains the file extension of the path,
or none. -/
def Ingestor.selects (path : List Char) : Option ParserClass :=
  let ext := pyLast (pySplit '.' path)
  subclassesOfInterface.find? (fun c => decide (ext ∈ c.FILE_EXTENSIONS))

/-- Ingestor.parse: extracts the extension, returns the sentinel string
when the extension is outside the registry, and otherwise delegates to the
parse of the selected subclass. The argument run stands for the call
c.parse(path) on the file behind the path; were the selection to produce
None, the attribute access None.parse would raise (exn). -/
def Ingestor.parse (path : List Char) (run : ParserClass → ParseOutcome) :
    ParseOutcome :=
  let ext := pyLast (pySplit '.' path)
  if decide (ext ∈ IngestorInterface.FILE_EXTENSIONS) = true then
    match Ingestor.selects path with
    | none => .exn
    | some c => run c
  else .sentinel (str "File extension not allowed / not supported")

/-- The split of a string is never the empty list of chunks. -/
theorem pySplit_ne_nil (sep : Char) (xs : List Char) : pySplit sep xs ≠ [] := by
  induction xs with
  | nil => simp [pySplit]
  | cons c cs ih =>
    by_cases h : c = sep
    · simp [pySplit, h]
    · simp only [pySplit, if_neg h]
      cases hcs : pySplit sep cs with
      | nil => simp
      | cons r rs => simp

/-- Unfolding of pySplit when the head character is the separator. -/
theorem pySplit_cons_of_eq (sep : Char) (cs : List Char) :
    pySplit sep (sep :: cs) = [] :: pySplit sep cs := by
  simp [pySplit]

/-- Unfolding of pySplit when the head character is not the separator. -/
theorem pySplit_cons_of_ne (sep c : Char) (cs : List Char) (h : ¬ c = sep)
    (r : List Char) (rs : List (List Char)) (hcs : pySplit sep cs = r :: rs) :
    pySplit sep (c :: cs) = (c :: r) :: rs := by
  simp [pySplit, h, hcs]

/-- A string free of the separator splits into the single chunk that is
the whole string. -/
theorem pySplit_of_not_mem (sep : Char) (xs : List Char) (h : sep ∉ xs) :
    pySplit sep xs = [xs] := by
  induction xs with
  | nil => rfl
  | cons c cs ih =>
    have hc : ¬ c = sep := fun hcs => h (hcs ▸ List.mem_cons_self c cs)
    have hcs : sep ∉ cs := fun hm => h (List.mem_cons_of_mem c hm)
    exact pySplit_cons_of_ne sep c cs hc cs [] (ih hcs)

/-- A string containing the separator splits into at least two chunks. -/
theorem two_le_length_pySplit_append (sep : Char) (xs ys : List Char) :
    2 ≤ (pySplit sep (xs ++ sep :: ys)).length := by
  induction xs with
  | nil =>
    have h1 : 1 ≤ (pySplit sep ys).length :=
      List.length_pos.mpr (pySplit_ne_nil sep ys)
    rw [List.nil_append, pySplit_cons_of_eq, List.length_cons]
    omega
  | cons c cs ih =>
    by_cases h : c = sep
    · have h1 : 1 ≤ (pySplit sep (cs ++ sep :: ys)).length :=
        List.length_pos.mpr (pySplit_ne_nil sep (cs ++ sep :: ys))
      rw [List.cons_append, h, pySplit_cons_of_eq, List.length_cons]
      omega
    · cases hcs : pySplit sep (cs ++ sep :: ys) with
      | nil => exact absurd hcs (pySplit_ne_nil sep (cs ++ sep :: ys))
      | cons r rs =>
        rw [List.cons_append, pySplit_cons_of_ne sep c _ h r rs hcs]
        rw [hcs] at ih
        simpa using ih

/-- The last chunk of the split of xs ++ sep :: ys is the last chunk of
the split of ys: only the text after the last separator matters. -/
theorem pyLast_pySplit_append (sep : Char) (xs ys : List Char) :
    pyLast (pySplit sep (xs ++ sep :: ys)) = pyLast (pySplit sep ys) := by
  induction xs with
  | nil =>
    rw [List.nil_append]
    simp only [pyLast, pySplit_cons_of_eq, List.getLastD_cons]
  | cons c cs ih =>
    by_cases h : c = sep
    · rw [List.cons_append, h, ← ih]
      simp only [pyLast, pySplit_cons_of_eq, List.getLastD_cons]
    · have h2 := two_le_length_pySplit_append sep cs ys
      cases hcs : pySplit sep (cs ++ sep :: ys) with
      | nil => exact absurd hcs (pySplit_ne_nil sep (cs ++ sep :: ys))
      | cons r rs =>
        rw [hcs] at ih h2
        cases rs with
        | nil => simp at h2
        | cons r2 rs2 =>
          rw [List.cons_append, pySplit_cons_of_ne sep c _ h r (r2 :: rs2) hcs]
          rw [← ih]
          simp only [pyLast, List.getLastD_cons]

/-- Helper for claim C7: when every data row is long enough for both
column indices, the row loop of CSVIndexer.parse returns one record per
row in row order, taking the body and author fields by position. -/
theorem csvRows_eq_map (bi ai : Nat) (rows : List (List (List Char)))
    (h : ∀ r ∈ rows, bi < r.length ∧ ai < r.length) :
    csvRows bi ai rows =
      some (rows.map (fun r => ⟨r.getD bi [], r.getD ai []⟩)) := by
  induction rows with
  | nil => rfl
  | cons r rs ih =>
    have hr := h r (List.mem_cons_self r rs)
    have hrs : ∀ x ∈ rs, bi < x.length ∧ ai < x.length :=
      fun x hx => h x (List.mem_cons_of_mem r hx)
    simp [csvRows, hr.1, hr.2, ih hrs]

/-- Claim C7: for every valid CSV input whose header row contains columns
named body and author and which has N data rows, CSVIndexer.parse returns
exactly N records in the order the rows appear, the k-th record taking its
body and author from the body and author fields of the k-th data row. -/
theorem CSVIndexer.parse_valid_header_rows (path : List Char)
    (header : List (List Char)) (rows : List (List (List Char))) (bi ai : Nat)
    (hpath : CSVIndexer.can_ingest path = true)
    (hb : pyIndex (str "body") header = some bi)
    (ha : pyIndex (str "author") header = some ai)
    (hrows : ∀ r ∈ rows, bi < r.length ∧ ai < r.length) :
    CSVIndexer.parse path (header :: rows) =
      ParseOutcome.records
        (rows.map (fun r => ⟨r.getD bi [], r.getD ai []⟩)) ∧
    (rows.map
        (fun r => (⟨r.getD bi [], r.getD ai []⟩ : QuoteModel))).length
      = rows.length := by
  refine ⟨?_, by simp⟩
  simp [CSVIndexer.parse, hpath, hb, ha, csvRows_eq_map bi ai rows hrows]

/-- Witness for claim C7 at a concrete two-column file with one data row. -/
theorem CSVIndexer.parse_valid_header_rows_witness :
    CSVIndexer.can_ingest (str "q.csv") = true ∧
    CSVIndexer.parse (str "q.csv")
        [[str "body", str "author"], [str "hello", str "world"]] =
      ParseOutcome.records
        ([[str "hello", str "world"]].map
          (fun r => ⟨r.getD 0 [], r.getD 1 []⟩)) :=
  ⟨by decide,
    (CSVIndexer.parse_valid_header_rows (str "q.csv")
      [str "body", str "author"] [[str "hello", str "world"]] 0 1
      (by decide) (by decide) (by decide) (by decide)).1⟩

/-- Claim C8: Ingestor.can_ingest accepts every path ending in a dot
followed by one of the four registry extensions, and rejects every path
whose text after the final dot is outside the registry. -/
theorem Ingestor.can_ingest_iff_registry :
    (∀ e ∈ IngestorInterface.FILE_EXTENSIONS, ∀ stem : List Char,
      Ingestor.can_ingest (stem ++ '.' :: e) = true) ∧
    (∀ p : List Char,
      pyLast (pySplit '.' p) ∉ IngestorInterface.FILE_EXTENSIONS →
      Ingestor.can_ingest p = false) := by
  constructor
  · intro e he stem
    have hnot : '.' ∉ e := by
      simp only [IngestorInterface.FILE_EXTENSIONS, List.mem_cons,
        List.not_mem_nil, or_false] at he
      rcases he with rfl | rfl | rfl | rfl <;> decide
    unfold Ingestor.can_ingest
    rw [pyLast_pySplit_append '.' stem e, pySplit_of_not_mem '.' e hnot]
    have h1 : pyLast [e] = e := rfl
    rw [h1]
    exact decide_eq_true he
  · intro p hp
    unfold Ingestor.can_ingest
    exact decide_eq_false hp

/-- Witness for claim C8 at the path quotes.txt and the path quotes.xlsx. -/
theorem Ingestor.can_ingest_iff_registry_witness :
    (str "txt" ∈ IngestorInterface.FILE_EXTENSIONS ∧
      Ingestor.can_ingest (str "quotes" ++ '.' :: str "txt") = true) ∧
    (pyLast (pySplit '.' (str "quotes.xlsx")) ∉
        IngestorInterface.FILE_EXTENSIONS ∧
      Ingestor.can_ingest (str "quotes.xlsx") = false) :=
  ⟨⟨by decide,
      Ingestor.can_ingest_iff_registry.1 (str "txt") (by decide)
        (str "quotes")⟩,
    ⟨by decide,
      Ingestor.can_ingest_iff_registry.2 (str "quotes.xlsx") (by decide)⟩⟩

/-- Claim C9: the re-implemented extension check of the dispatcher agrees
with the inherited check of the base interface on every path: the two
functions compute the same boolean. -/
theorem Ingestor.can_ingest_eq_interface (p : List Char) :
    Ingestor.can_ingest p = IngestorInterface.can_ingest p := rfl

/-- Witness for claim C9 at a concrete path. -/
theorem Ingestor.can_ingest_eq_interface_witness :
    Ingestor.can_ingest (str "quotes.txt") =
      IngestorInterface.can_ingest (str "quotes.txt") :=
  Ingestor.can_ingest_eq_interface (str "quotes.txt")

/-- Claim C10: on a path with no dot the whole path plays the role of the
extension, so the check accepts exactly the four registry words, for the
base interface and for the dispatcher alike. -/
theorem can_ingest_no_dot_whole_path (p : List Char) (h : '.' ∉ p) :
    (IngestorInterface.can_ingest p = true ↔
      (p = str "csv" ∨ p = str "docx" ∨ p = str "pdf" ∨ p = str "txt")) ∧
    (Ingestor.can_ingest p = true ↔
      (p = str "csv" ∨ p = str "docx" ∨ p = str "pdf" ∨ p = str "txt")) := by
  have hsplit : pyLast (pySplit '.' p) = p := by
    rw [pySplit_of_not_mem '.' p h]; rfl
  constructor
  · unfold IngestorInterface.can_ingest
    rw [hsplit]
    simp [IngestorInterface.FILE_EXTENSIONS]
  · unfold Ingestor.can_ingest
    rw [hsplit]
    simp [IngestorInterface.FILE_EXTENSIONS]

/-- Witness for claim C10: a path that is literally the word csv, with no
dot anywhere, is accepted. -/
theorem can_ingest_no_dot_whole_path_witness :
    ('.' ∉ str "csv") ∧ Ingestor.can_ingest (str "csv") = true :=
  ⟨by decide,
    (can_ingest_no_dot_whole_path (str "csv") (by decide)).2.mpr (Or.inl rfl)⟩

/-- Claim C1, behavior of the code at a failing input: the dispatcher
selects CSVIndexer for the txt, docx and pdf extensions as well, because
every subclass inherits the full FILE_EXTENSIONS registry and the search
takes the first match; a run in which only TxtIndexer would succeed
therefore ends in the failure of CSVIndexer. -/
theorem Ingestor.selects_csvindexer_for_every_supported_extension :
    Ingestor.selects (str "quotes.txt") = some ParserClass.CSVIndexer ∧
    Ingestor.selects (str "quotes.docx") = some ParserClass.CSVIndexer ∧
    Ingestor.selects (str "quotes.pdf") = some ParserClass.CSVIndexer ∧
    Ingestor.parse (str "quotes.txt")
        (fun c =>
          if c = ParserClass.TxtIndexer then ParseOutcome.records []
          else ParseOutcome.exn) =
      ParseOutcome.exn := by
  decide

/-- Claim C2, behavior of the code at a failing input: on an unsupported
extension Ingestor.parse returns a bare string sentinel mixed into the
result, not a typed error; no variant parse is consulted, whatever the
variants would deliver. -/
theorem Ingestor.parse_unsupported_returns_sentinel_string :
    Ingestor.parse (str "quotes.xlsx") (fun _ => ParseOutcome.exn) =
      ParseOutcome.sentinel
        (str "File extension not allowed / not supported") ∧
    Ingestor.parse (str "quotes.xlsx") (fun _ => ParseOutcome.records []) =
      ParseOutcome.sentinel
        (str "File extension not allowed / not supported") := by
  decide

/-- Claim C3, behavior of the code at a failing input: a line holding two
hyphens is split at every hyphen; the text and word-document variants keep
the first two untrimmed parts and drop the rest, and the PDF variant
raises on the three-part tuple, none of them producing the
first-hyphen-with-trim record the claim demands. -/
theorem parse_splits_every_hyphen_untrimmed :
    TxtIndexer.parse (str "q.txt") [str "A - B - C"] =
      ParseOutcome.records [⟨str "A ", str " B "⟩] ∧
    TxtIndexer.parse (str "q.txt") [str "A - B - C"] ≠
      ParseOutcome.records [⟨str "A", str "B - C"⟩] ∧
    DocxIndexer.parse (str "q.docx") [str "A - B - C"] =
      ParseOutcome.records [⟨str "A ", str " B "⟩] ∧
    PDFIndexer.parse (str "q.pdf") (str "A - B - C") = ParseOutcome.exn := by
  decide

/-- Claim C4, behavior of the code at a failing input: a text file whose
single line is blank makes TxtIndexer.parse raise an IndexError instead of
yielding zero records, and an empty pdftotext output makes PDFIndexer.parse
raise a ValueError. -/
theorem parse_blank_line_raises :
    TxtIndexer.parse (str "q.txt") [str "\n"] = ParseOutcome.exn ∧
    PDFIndexer.parse (str "q.pdf") (str "") = ParseOutcome.exn := by
  decide

/-- Claim C5, behavior of the code at a failing input: every variant
inherits the full four-extension registry, so each accepts the extensions
of the other variants instead of its single declared one. -/
theorem variant_can_ingest_accepts_foreign_extensions :
    CSVIndexer.can_ingest (str "f.txt") = true ∧
    TxtIndexer.can_ingest (str "f.pdf") = true ∧
    DocxIndexer.can_ingest (str "f.csv") = true ∧
    PDFIndexer.can_ingest (str "f.docx") = true := by
  decide

/-- Claim C6, behavior of the code at a failing input: a CSV data row with
an empty body field yields a record whose body is the empty string, and a
text line yields a record with untrimmed whitespace around body and
author, the trailing newline included. -/
theorem parse_yields_untrimmed_or_empty_fields :
    CSVIndexer.parse (str "q.csv")
        [[str "body", str "author"], [str "", str "x"]] =
      ParseOutcome.records [⟨[], str "x"⟩] ∧
    TxtIndexer.parse (str "q.txt") [str "A - B\n"] =
      ParseOutcome.records [⟨str "A ", str " B\n"⟩] := by
  decide
